import Mathlib

/-!
Verification development for the fireshare transcoding pipeline.

The definitions below are a shallow embedding of the Python sources
`app/server/fireshare/util.py` and `app/server/fireshare/cli.py`:
pure logic is translated directly, subprocess invocations are modelled by
environment functions describing their outcomes, and the filesystem /
database effects that the code reads back (output files, the corrupt-video
registry, the has-variant flags, the transcoding status file) are carried
as explicit state.
-/

/-! ## Encoder catalog (`util.py`, `_get_encoder_candidates`) -/

structure Encoder where
  name : String
  video_codec : String
  audio_codec : String
  audio_bitrate : String
  extra_args : List String
deriving DecidableEq, Repr

def h264_cpu : Encoder :=
  { name := "H.264 CPU", video_codec := "libx264", audio_codec := "aac",
    audio_bitrate := "128k", extra_args := ["-preset", "fast", "-crf", "23"] }

def av1_cpu : Encoder :=
  { name := "AV1 CPU", video_codec := "libaom-av1", audio_codec := "libopus",
    audio_bitrate := "96k", extra_args := ["-cpu-used", "4", "-crf", "30", "-b:v", "0"] }

def h264_nvenc : Encoder :=
  { name := "H.264 NVENC", video_codec := "h264_nvenc", audio_codec := "aac",
    audio_bitrate := "128k", extra_args := ["-preset", "p4", "-cq:v", "23"] }

def av1_nvenc : Encoder :=
  { name := "AV1 NVENC", video_codec := "av1_nvenc", audio_codec := "libopus",
    audio_bitrate := "96k", extra_args := ["-preset", "p4", "-cq:v", "30"] }

def _get_encoder_candidates (use_gpu : Bool) (encoder_preference : String) : List Encoder :=
  if encoder_preference = "h264" then
    if use_gpu then [h264_nvenc, h264_cpu] else [h264_cpu]
  else if encoder_preference = "av1" then
    if use_gpu then [av1_nvenc, av1_cpu] else [av1_cpu]
  else
    if use_gpu then [h264_nvenc, av1_nvenc, h264_cpu, av1_cpu] else [h264_cpu, av1_cpu]

/-! ## Transcode timeout (`util.py`, `calculate_transcode_timeout`)

The probed duration (`get_video_duration`) is a float or `None`; we model it
as `Option ℚ`.  Python `int()` truncates toward zero. -/

def py_int (q : ℚ) : ℤ := if 0 ≤ q then q.floor else -((-q).floor)

def calculate_transcode_timeout (duration : Option ℚ) (base_timeout : ℤ) : ℤ :=
  match duration with
  | none => base_timeout
  | some d =>
    -- mirrors Python `if duration:` — a duration of 0 is falsy
    if d = 0 then base_timeout
    else min (max (py_int (d * 60)) 600) 28800

/-! ## Transcoding status file (`util.py`, `write_transcoding_status` /
`read_transcoding_status`)

The status file content is modelled as `Option StatusRecord`: `none` stands
for a missing (or unreadable) file.  The Python default record has no `pid`
key, so `existing.get('pid')` yields `None`; we model that as `pid := none`. -/

structure StatusRecord where
  is_running : Bool
  current : ℕ
  total : ℕ
  current_video : Option String
  pid : Option ℤ
deriving DecidableEq, Repr

def default_status : StatusRecord :=
  { is_running := false, current := 0, total := 0, current_video := none, pid := none }

def read_transcoding_status (file : Option StatusRecord) : StatusRecord :=
  match file with
  | none => default_status
  | some r => r

def write_transcoding_status (file : Option StatusRecord) (current total : ℕ)
    (current_video : Option String) (pid : Option ℤ) : StatusRecord :=
  let pid' := match pid with
    | none => (read_transcoding_status file).pid
    | some p => some p
  { is_running := true, current := current, total := total,
    current_video := current_video, pid := pid' }

/-! ## Transcode executor (`util.py`, `transcode_video_quality`)

A single call may invoke ffmpeg several times.  The environment function
`env : ℕ → RunResult` gives the outcome of the k-th ffmpeg invocation of the
call (counted from 0), and `fileAfter : ℕ → Bool` says whether a file is
present at `out_path` immediately after that invocation returns.  `file0` is
whether a file is present at `out_path` before any invocation.  The code's
NVENC-diagnostics block (lines 637-717) only logs and tweaks the environment
for the availability probe; it does not change the candidate list or the
control flow modelled here. -/

inductive RunResult where
  | exited (code : ℕ)
  | timeout
  | exc
deriving DecidableEq, Repr

/-- Outcome of the cached-encoder fast path (`util.py` lines 596-633):
either the call returns (`done`), or execution falls through to the full
candidate search (`fallthru`).  Each carries the mode's cache entry, the
out-path file presence, and the encoders invoked so far. -/
inductive CachedOutcome where
  | done (res : Bool × Option String) (cache : Option Encoder) (file : Bool)
      (invocs : List Encoder)
  | fallthru (cache : Option Encoder) (file : Bool) (invocs : List Encoder)
deriving DecidableEq, Repr

def cachedPhase (cache : Option Encoder) (file0 : Bool) (env : ℕ → RunResult)
    (fileAfter : ℕ → Bool) : CachedOutcome :=
  match cache with
  | none => .fallthru none file0 []
  | some enc =>
    match env 0 with
    | .exited 0 => .done (true, none) (some enc) (fileAfter 0) [enc]
    | .exited _ =>
      -- non-zero exit: cache cleared, output file NOT removed here
      .fallthru none (fileAfter 0) [enc]
    | .timeout =>
      -- timeout: cache cleared AND the partial output file is removed
      .fallthru none false [enc]
    | .exc =>
      -- other exception: cache cleared, output file NOT removed here
      .fallthru none (fileAfter 0) [enc]

structure TVQOut where
  res : Bool × Option String
  cache : Option Encoder
  file : Bool
  invocs : List Encoder
deriving DecidableEq, Repr

/-- Candidate search loop (`util.py` lines 726-782): try each encoder in
order; on success cache it and return, on any failure remove the partial
output file and continue; when all fail return `(false, 'encoders')`. -/
def candidateLoop (env : ℕ → RunResult) (fileAfter : ℕ → Bool) :
    ℕ → Bool → List Encoder → TVQOut
  | _, file, [] => { res := (false, some "encoders"), cache := none, file := file, invocs := [] }
  | k, _file, enc :: rest =>
    match env k with
    | .exited 0 =>
      { res := (true, none), cache := some enc, file := fileAfter k, invocs := [enc] }
    | _ =>
      let out := candidateLoop env fileAfter (k + 1) false rest
      { out with invocs := enc :: out.invocs }

def transcode_video_quality (valid : Bool) (cache : Option Encoder)
    (use_gpu : Bool) (encoder_preference : String) (file0 : Bool)
    (env : ℕ → RunResult) (fileAfter : ℕ → Bool) : TVQOut :=
  if valid = false then
    { res := (false, some "corruption"), cache := cache, file := file0, invocs := [] }
  else
    match cachedPhase cache file0 env fileAfter with
    | .done r c f i => { res := r, cache := c, file := f, invocs := i }
    | .fallthru _ f i =>
      let out := candidateLoop env fileAfter i.length f
        (_get_encoder_candidates use_gpu encoder_preference)
      { out with invocs := i ++ out.invocs }

/-! ## Theorems for claims C4, C5, C9, C10 -/

/-- Claim C4: `_get_encoder_candidates` with preference `auto` and
`use_gpu = true` returns exactly `[H.264 NVENC, AV1 NVENC, H.264 CPU, AV1 CPU]`;
with `use_gpu = false` it returns `[H.264 CPU, AV1 CPU]`. -/
theorem encoder_candidates_auto_order :
    _get_encoder_candidates true "auto" = [h264_nvenc, av1_nvenc, h264_cpu, av1_cpu]
    ∧ _get_encoder_candidates false "auto" = [h264_cpu, av1_cpu] := by
  exact ⟨rfl, rfl⟩

/-- Claim C5, counterexample: with a known duration of exactly 0 the code
returns the base timeout (7200) unchanged, while the claimed formula
`min (max (int (duration * 60)) 600) 28800` would give 600. -/
theorem timeout_zero_duration_cex :
    calculate_transcode_timeout (some 0) 7200 = 7200
    ∧ min (max (py_int ((0 : ℚ) * 60)) 600) 28800 = 600 := by
  constructor
  · simp [calculate_transcode_timeout]
  · norm_num [py_int]
    decide

/-- Claim C5 (amended): `calculate_transcode_timeout` returns
`min (max (int (duration * 60)) 600) 28800` whenever the probed duration is
known and nonzero, and returns the supplied base timeout unchanged when the
duration is unknown (a known duration of exactly 0 is treated as unknown). -/
theorem timeout_formula_known_duration (d : ℚ) (base : ℤ) (h : d ≠ 0) :
    calculate_transcode_timeout (some d) base = min (max (py_int (d * 60)) 600) 28800
    ∧ calculate_transcode_timeout none base = base := by
  refine ⟨?_, rfl⟩
  simp [calculate_transcode_timeout, h]

/-- Witness for `timeout_formula_known_duration` at duration 3600. -/
theorem timeout_formula_known_duration_witness :
    ((3600 : ℚ) ≠ 0)
    ∧ (calculate_transcode_timeout (some 3600) 7200
        = min (max (py_int ((3600 : ℚ) * 60)) 600) 28800
       ∧ calculate_transcode_timeout none 7200 = 7200) :=
  ⟨by norm_num, timeout_formula_known_duration 3600 7200 (by norm_num)⟩

/-- Claim C9: a probed duration of exactly 0 is treated like an unknown
duration — `calculate_transcode_timeout` returns the supplied base timeout
unchanged instead of clamping to the 600-second floor. -/
theorem timeout_zero_duration_like_unknown (base : ℤ) :
    calculate_transcode_timeout (some 0) base = base
    ∧ calculate_transcode_timeout none base = base := by
  exact ⟨by simp [calculate_transcode_timeout], rfl⟩

/-- Claim C10: a `write_transcoding_status` call without a pid argument
writes a record whose pid equals the pid stored in the existing status file
(`null` when no record exists), and `is_running` is always written as
`true` (whether or not a pid is supplied). -/
theorem write_status_preserves_pid (file : Option StatusRecord) (c t : ℕ)
    (v : Option String) :
    (write_transcoding_status file c t v none).pid
      = (match file with | some r => r.pid | none => none)
    ∧ ∀ p : Option ℤ, (write_transcoding_status file c t v p).is_running = true := by
  constructor
  · cases file <;> rfl
  · intro p; cases p <;> rfl

/-! ## Helper lemmas about the transcode executor -/

lemma cachedPhase_failure (enc : Encoder) (file0 : Bool) (env : ℕ → RunResult)
    (fileAfter : ℕ → Bool) (h : env 0 ≠ RunResult.exited 0) :
    cachedPhase (some enc) file0 env fileAfter
      = CachedOutcome.fallthru none
          (if env 0 = RunResult.timeout then false else fileAfter 0) [enc] := by
  cases hE : env 0 with
  | exited c =>
    cases c with
    | zero => exact absurd hE h
    | succ c => simp [cachedPhase, hE]
  | timeout => simp [cachedPhase, hE]
  | exc => simp [cachedPhase, hE]

lemma tvq_cached_failure_eq (enc : Encoder) (g : Bool) (p : String) (file0 : Bool)
    (env : ℕ → RunResult) (fileAfter : ℕ → Bool) (h : env 0 ≠ RunResult.exited 0) :
    transcode_video_quality true (some enc) g p file0 env fileAfter
      = { candidateLoop env fileAfter 1
            (if env 0 = RunResult.timeout then false else fileAfter 0)
            (_get_encoder_candidates g p) with
          invocs := enc :: (candidateLoop env fileAfter 1
            (if env 0 = RunResult.timeout then false else fileAfter 0)
            (_get_encoder_candidates g p)).invocs } := by
  have hc := cachedPhase_failure enc file0 env fileAfter h
  simp [transcode_video_quality, hc]

lemma tvq_cached_failure_invocs (enc : Encoder) (g : Bool) (p : String) (file0 : Bool)
    (env : ℕ → RunResult) (fileAfter : ℕ → Bool) (h : env 0 ≠ RunResult.exited 0) :
    (transcode_video_quality true (some enc) g p file0 env fileAfter).invocs
      = enc :: (candidateLoop env fileAfter 1
          (if env 0 = RunResult.timeout then false else fileAfter 0)
          (_get_encoder_candidates g p)).invocs := by
  rw [tvq_cached_failure_eq enc g p file0 env fileAfter h]

lemma tvq_cached_failure_res (enc : Encoder) (g : Bool) (p : String) (file0 : Bool)
    (env : ℕ → RunResult) (fileAfter : ℕ → Bool) (h : env 0 ≠ RunResult.exited 0) :
    (transcode_video_quality true (some enc) g p file0 env fileAfter).res
      = (candidateLoop env fileAfter 1
          (if env 0 = RunResult.timeout then false else fileAfter 0)
          (_get_encoder_candidates g p)).res := by
  rw [tvq_cached_failure_eq enc g p file0 env fileAfter h]

lemma candidateLoop_invocs (env : ℕ → RunResult) (fileAfter : ℕ → Bool)
    (l : List Encoder) : ∀ (k : ℕ) (file : Bool),
    (∃ m, (candidateLoop env fileAfter k file l).invocs = l.take m)
    ∧ ((candidateLoop env fileAfter k file l).res.1 = false
        → (candidateLoop env fileAfter k file l).invocs = l) := by
  induction l with
  | nil => intro k file; exact ⟨⟨0, rfl⟩, fun _ => rfl⟩
  | cons enc rest ih =>
    intro k file
    cases hE : env k with
    | exited c =>
      cases c with
      | zero =>
        constructor
        · exact ⟨1, by simp [candidateLoop, hE]⟩
        · intro hres
          simp [candidateLoop, hE] at hres
      | succ c =>
        obtain ⟨⟨m, hm⟩, hf⟩ := ih (k + 1) false
        constructor
        · exact ⟨m + 1, by simp [candidateLoop, hE, hm]⟩
        · intro hres
          simp [candidateLoop, hE] at hres ⊢
          exact hf hres
    | timeout =>
      obtain ⟨⟨m, hm⟩, hf⟩ := ih (k + 1) false
      constructor
      · exact ⟨m + 1, by simp [candidateLoop, hE, hm]⟩
      · intro hres
        simp [candidateLoop, hE] at hres ⊢
        exact hf hres
    | exc =>
      obtain ⟨⟨m, hm⟩, hf⟩ := ih (k + 1) false
      constructor
      · exact ⟨m + 1, by simp [candidateLoop, hE, hm]⟩
      · intro hres
        simp [candidateLoop, hE] at hres ⊢
        exact hf hres

/-! ## Theorems for claims C1 and C2 -/

/-- Claim C1, counterexample: the cached CPU encoder fails with exit code 1
and leaves a partial file at out_path; the mode's cache entry is cleared and
execution falls through to the candidate search, but the partial output file
is NOT deleted (the file flag is still `true`), contrary to the claim that
it is deleted on every failure. -/
theorem cached_failure_no_delete_cex :
    cachedPhase (some h264_cpu) false (fun _ => RunResult.exited 1) (fun _ => true)
      = CachedOutcome.fallthru none true [h264_cpu] := by
  rfl

/-- Claim C1 (amended): when the cached encoder for the current mode fails
(non-zero exit, exception, or timeout), the mode's cache entry is cleared and
the call continues to the full candidate search instead of returning failure;
the partial output file at out_path is deleted only in the timeout case, and
is left in place on a non-zero exit or an exception. -/
theorem cached_failure_behavior (enc : Encoder) (g : Bool) (p : String)
    (file0 : Bool) (env : ℕ → RunResult) (fileAfter : ℕ → Bool)
    (h : env 0 ≠ RunResult.exited 0) :
    cachedPhase (some enc) file0 env fileAfter
      = CachedOutcome.fallthru none
          (if env 0 = RunResult.timeout then false else fileAfter 0) [enc]
    ∧ transcode_video_quality true (some enc) g p file0 env fileAfter
      = { candidateLoop env fileAfter 1
            (if env 0 = RunResult.timeout then false else fileAfter 0)
            (_get_encoder_candidates g p) with
          invocs := enc :: (candidateLoop env fileAfter 1
            (if env 0 = RunResult.timeout then false else fileAfter 0)
            (_get_encoder_candidates g p)).invocs } :=
  ⟨cachedPhase_failure enc file0 env fileAfter h,
   tvq_cached_failure_eq enc g p file0 env fileAfter h⟩

/-- Witness for `cached_failure_behavior`: cached `h264_cpu`, exit code 1. -/
theorem cached_failure_behavior_witness :
    ((fun _ => RunResult.exited 1) 0 ≠ RunResult.exited 0)
    ∧ (cachedPhase (some h264_cpu) false (fun _ => RunResult.exited 1) (fun _ => true)
        = CachedOutcome.fallthru none
            (if (fun _ => RunResult.exited 1) 0 = RunResult.timeout then false
             else (fun _ => true) 0) [h264_cpu]
       ∧ transcode_video_quality true (some h264_cpu) false "auto" false
            (fun _ => RunResult.exited 1) (fun _ => true)
          = { candidateLoop (fun _ => RunResult.exited 1) (fun _ => true) 1
                (if (fun _ => RunResult.exited 1) 0 = RunResult.timeout then false
                 else (fun _ => true) 0)
                (_get_encoder_candidates false "auto") with
              invocs := h264_cpu :: (candidateLoop (fun _ => RunResult.exited 1)
                (fun _ => true) 1
                (if (fun _ => RunResult.exited 1) 0 = RunResult.timeout then false
                 else (fun _ => true) 0)
                (_get_encoder_candidates false "auto")).invocs }) :=
  ⟨by decide,
   cached_failure_behavior h264_cpu false "auto" false
     (fun _ => RunResult.exited 1) (fun _ => true) (by decide)⟩

/-- Claim C2, counterexample: gpu mode, preference auto, cached
`h264_nvenc`; every invocation fails with exit code 1.  The failed cache-hit
encoder IS invoked again as the first entry of the candidate list, so the
whole call invokes `h264_nvenc` twice — the claim that the failed cache-hit
encoder is not retried in that job is false. -/
theorem cached_encoder_retried_cex :
    (transcode_video_quality true (some h264_nvenc) true "auto" false
        (fun _ => RunResult.exited 1) (fun _ => true)).invocs
      = [h264_nvenc, h264_nvenc, av1_nvenc, h264_cpu, av1_cpu]
    ∧ (transcode_video_quality true (some h264_nvenc) true "auto" false
        (fun _ => RunResult.exited 1) (fun _ => true)).invocs.count h264_nvenc = 2 := by
  constructor <;> rfl

/-- Claim C2 (amended): when the cached encoder is run first and fails, the
mode's cache entry is discarded, and within the same call the full candidate
list is tried in order (stopping at the first success; on overall failure the
entire list has been tried).  The cached fast path is not re-entered — the
cached encoder is invoked exactly once via the cache — but the failed encoder
may be invoked once more as an ordinary member of the candidate list. -/
theorem cache_discarded_candidates_tried (enc : Encoder) (g : Bool) (p : String)
    (file0 : Bool) (env : ℕ → RunResult) (fileAfter : ℕ → Bool)
    (h : env 0 ≠ RunResult.exited 0) :
    (∃ f, cachedPhase (some enc) file0 env fileAfter
        = CachedOutcome.fallthru none f [enc])
    ∧ (∃ m, (transcode_video_quality true (some enc) g p file0 env fileAfter).invocs
        = enc :: (_get_encoder_candidates g p).take m)
    ∧ ((transcode_video_quality true (some enc) g p file0 env fileAfter).res.1 = false
        → (transcode_video_quality true (some enc) g p file0 env fileAfter).invocs
          = enc :: _get_encoder_candidates g p) := by
  obtain ⟨⟨m, hm⟩, hf⟩ := candidateLoop_invocs env fileAfter
    (_get_encoder_candidates g p) 1
    (if env 0 = RunResult.timeout then false else fileAfter 0)
  refine ⟨⟨_, cachedPhase_failure enc file0 env fileAfter h⟩, ⟨m, ?_⟩, ?_⟩
  · rw [tvq_cached_failure_invocs enc g p file0 env fileAfter h, hm]
  · intro hres
    rw [tvq_cached_failure_res enc g p file0 env fileAfter h] at hres
    rw [tvq_cached_failure_invocs enc g p file0 env fileAfter h, hf hres]

/-- Witness for `cache_discarded_candidates_tried`: all invocations fail. -/
theorem cache_discarded_candidates_tried_witness :
    ((fun _ => RunResult.exited 1) 0 ≠ RunResult.exited 0)
    ∧ ((∃ f, cachedPhase (some h264_nvenc) false (fun _ => RunResult.exited 1)
          (fun _ => true) = CachedOutcome.fallthru none f [h264_nvenc])
       ∧ (∃ m, (transcode_video_quality true (some h264_nvenc) true "auto" false
            (fun _ => RunResult.exited 1) (fun _ => true)).invocs
          = h264_nvenc :: (_get_encoder_candidates true "auto").take m)
       ∧ ((transcode_video_quality true (some h264_nvenc) true "auto" false
            (fun _ => RunResult.exited 1) (fun _ => true)).res.1 = false
          → (transcode_video_quality true (some h264_nvenc) true "auto" false
              (fun _ => RunResult.exited 1) (fun _ => true)).invocs
            = h264_nvenc :: _get_encoder_candidates true "auto")) :=
  ⟨by decide,
   cache_discarded_candidates_tried h264_nvenc true "auto" false
     (fun _ => RunResult.exited 1) (fun _ => true) (by decide)⟩

/-! ## Video validation (`util.py`, `validate_video_file`, decode-test phase)

Python string operations are modelled on the character-list view of
`String`: `pyLower` is `str.lower()` (ASCII, which covers every indicator),
`pyStrip` is `str.strip()`, `pyIn needle hay` is `needle in hay`, and
`pyTake n` is the slice `[:n]`. -/

def leadsChars : List Char → List Char → Bool
  | [], _ => true
  | _ :: _, [] => false
  | a :: as, b :: bs => a = b && leadsChars as bs

def occursInChars (needle : List Char) : List Char → Bool
  | [] => leadsChars needle []
  | c :: rest => leadsChars needle (c :: rest) || occursInChars needle rest

def pyLower (s : String) : String := ⟨s.data.map Char.toLower⟩

def isPySpace (c : Char) : Bool :=
  c = ' ' || c = '\t' || c = '\n' || c = '\r' || c = '\x0b' || c = '\x0c'

def pyStrip (s : String) : String :=
  ⟨((s.data.dropWhile isPySpace).reverse.dropWhile isPySpace).reverse⟩

def pyIn (needle hay : String) : Bool := occursInChars needle.data hay.data

def pyTake (n : ℕ) (s : String) : String := ⟨s.data.take n⟩

def VIDEO_CORRUPTION_INDICATORS : List String :=
  ["Corrupt frame detected",
   "No sequence header",
   "Error submitting packet to decoder",
   "Invalid data found when processing input",
   "Decode error rate",
   "moov atom not found",
   "Invalid NAL unit size",
   "non-existing PPS",
   "Could not find codec parameters"]

def AV1_FALSE_POSITIVE_INDICATORS : List String :=
  ["corrupt frame detected",
   "no sequence header",
   "error submitting packet to decoder",
   "decode error rate",
   "invalid nal unit size",
   "non-existing pps"]

def AV1_CODEC_NAMES : List String :=
  ["av1", "libaom-av1", "libsvtav1", "av1_nvenc", "av1_qsv"]

/-- Mirrors `codec_name = stream.get('codec_name','').lower()` followed by
`codec_name in AV1_CODEC_NAMES`. -/
def is_av1_source_of (codec_name_raw : String) : Bool :=
  if pyLower codec_name_raw ∈ AV1_CODEC_NAMES then true else false

/-- Mirrors the AV1 indicator loop (`util.py` lines 258-266): first real
(non-false-positive) matching indicator aborts the scan; otherwise the flag
records whether any false-positive indicator matched. -/
def av1Scan (stderr_lower : String) : List String → Bool → Option String × Bool
  | [], found_fp => (none, found_fp)
  | ind :: rest, found_fp =>
    if pyIn (pyLower ind) stderr_lower then
      if pyLower ind ∈ AV1_FALSE_POSITIVE_INDICATORS then
        av1Scan stderr_lower rest true
      else (some ind, found_fp)
    else av1Scan stderr_lower rest found_fp

/-- Mirrors the non-AV1 indicator loops (`util.py` lines 285-294): the first
matching corruption indicator, if any. -/
def firstIndicatorMatch (stderr_lower : String) : List String → Option String
  | [] => none
  | ind :: rest =>
    if pyIn (pyLower ind) stderr_lower then some ind
    else firstIndicatorMatch stderr_lower rest

/-- Decode-test phase of `validate_video_file` (`util.py` lines 243-296),
as a function of the AV1 classification, the decode process's return code
and its raw stderr. -/
def validate_decode (is_av1_source : Bool) (returncode : ℤ) (stderr_raw : String) :
    Bool × Option String :=
  let stderr := pyStrip stderr_raw
  let stderr_lower := pyLower stderr
  if is_av1_source then
    match av1Scan stderr_lower VIDEO_CORRUPTION_INDICATORS false with
    | (some ind, _) => (false, some ("Video file appears to be corrupt: " ++ ind))
    | (none, true) => (true, none)
    | (none, false) =>
      if returncode ≠ 0 then
        if stderr ≠ "" then (false, some ("Decode test failed: " ++ pyTake 200 stderr))
        else (false, some "Decode test failed with no error message")
      else (true, none)
  else
    if returncode ≠ 0 then
      match firstIndicatorMatch stderr_lower VIDEO_CORRUPTION_INDICATORS with
      | some ind => (false, some ("Video file appears to be corrupt: " ++ ind))
      | none => (false, some ("Decode test failed: "
          ++ (if stderr ≠ "" then pyTake 200 stderr else "Unknown error")))
    else
      match firstIndicatorMatch stderr_lower VIDEO_CORRUPTION_INDICATORS with
      | some ind => (false, some ("Video file appears to be corrupt: " ++ ind))
      | none => (true, none)

lemma av1Scan_all_fp (s : String) : ∀ (l : List String) (fp : Bool),
    (∀ ind ∈ l, pyIn (pyLower ind) s = true
      → pyLower ind ∈ AV1_FALSE_POSITIVE_INDICATORS) →
    (av1Scan s l fp).1 = none
    ∧ (fp = true → (av1Scan s l fp).2 = true)
    ∧ (∀ ind ∈ l, pyIn (pyLower ind) s = true → (av1Scan s l fp).2 = true) := by
  intro l
  induction l with
  | nil =>
    intro fp _
    exact ⟨rfl, fun h => h, by simp⟩
  | cons ind rest ih =>
    intro fp hall
    have hrest : ∀ i ∈ rest, pyIn (pyLower i) s = true
        → pyLower i ∈ AV1_FALSE_POSITIVE_INDICATORS :=
      fun i hi h => hall i (List.mem_cons_of_mem ind hi) h
    by_cases hm : pyIn (pyLower ind) s = true
    · have hfp : pyLower ind ∈ AV1_FALSE_POSITIVE_INDICATORS :=
        hall ind (List.mem_cons_self ind rest) hm
      have heq : av1Scan s (ind :: rest) fp = av1Scan s rest true := by
        simp [av1Scan, hm, hfp]
      obtain ⟨h1, h2, h3⟩ := ih true hrest
      refine ⟨by rw [heq]; exact h1, fun _ => by rw [heq]; exact h2 rfl, ?_⟩
      intro i _ _
      rw [heq]
      exact h2 rfl
    · have heq : av1Scan s (ind :: rest) fp = av1Scan s rest fp := by
        simp [av1Scan, hm]
      obtain ⟨h1, h2, h3⟩ := ih fp hrest
      refine ⟨by rw [heq]; exact h1, fun hfp => by rw [heq]; exact h2 hfp, ?_⟩
      intro i hi hmi
      rcases List.mem_cons.mp hi with hi | hi
      · exact absurd (hi ▸ hmi) hm
      · rw [heq]; exact h3 i hi hmi

/-! ## Theorem for claim C3 -/

/-- Claim C3: for a source classified as AV1 whose decode-test stderr
matches at least one false-positive corruption indicator and no
true-positive indicator, the decode-test phase returns `(true, none)`
regardless of the decode process's exit code. -/
theorem av1_false_positive_valid (codec_raw : String) (rc : ℤ) (stderr_raw : String)
    (hav1 : is_av1_source_of codec_raw = true)
    (hex : ∃ ind ∈ VIDEO_CORRUPTION_INDICATORS,
        pyIn (pyLower ind) (pyLower (pyStrip stderr_raw)) = true
        ∧ pyLower ind ∈ AV1_FALSE_POSITIVE_INDICATORS)
    (hall : ∀ ind ∈ VIDEO_CORRUPTION_INDICATORS,
        pyIn (pyLower ind) (pyLower (pyStrip stderr_raw)) = true
        → pyLower ind ∈ AV1_FALSE_POSITIVE_INDICATORS) :
    validate_decode (is_av1_source_of codec_raw) rc stderr_raw = (true, none) := by
  obtain ⟨ind, hmem, hmatch, _⟩ := hex
  obtain ⟨h1, _, h3⟩ :=
    av1Scan_all_fp (pyLower (pyStrip stderr_raw)) VIDEO_CORRUPTION_INDICATORS false hall
  have hpair : av1Scan (pyLower (pyStrip stderr_raw)) VIDEO_CORRUPTION_INDICATORS false
      = (none, true) := by
    rw [Prod.ext_iff]
    exact ⟨h1, h3 ind hmem hmatch⟩
  rw [hav1]
  simp [validate_decode, hpair]

/-- Witness for `av1_false_positive_valid`: codec `av1`, stderr is exactly
the false-positive indicator `Corrupt frame detected`, exit code 1. -/
theorem av1_false_positive_valid_witness :
    (is_av1_source_of "av1" = true)
    ∧ (∃ ind ∈ VIDEO_CORRUPTION_INDICATORS,
        pyIn (pyLower ind) (pyLower (pyStrip "Corrupt frame detected")) = true
        ∧ pyLower ind ∈ AV1_FALSE_POSITIVE_INDICATORS)
    ∧ (∀ ind ∈ VIDEO_CORRUPTION_INDICATORS,
        pyIn (pyLower ind) (pyLower (pyStrip "Corrupt frame detected")) = true
        → pyLower ind ∈ AV1_FALSE_POSITIVE_INDICATORS)
    ∧ validate_decode (is_av1_source_of "av1") 1 "Corrupt frame detected" = (true, none) :=
  ⟨by decide, by decide, by decide,
   av1_false_positive_valid "av1" 1 "Corrupt frame detected"
     (by decide) (by decide) (by decide)⟩

/-! ## Batch orchestrator (`cli.py`, `transcode_videos` and the corrupt
video registry)

State carried across the run: the persistent corrupt-video registry
(`corrupt_videos.json`), the per-(video,height) has-variant flags in the DB,
the list of transcode invocations performed, and the set of output files on
disk (`fs`).  The environment `env : String → ℕ → TransOutcome` gives the
outcome of `transcode_video_quality` for a (video id, height) pair. -/

structure VideoRec where
  id : String
  height : Option ℕ
  pathExists : Bool
deriving DecidableEq, Repr

inductive TransOutcome where
  | success
  | corruption
  | encodersFail
deriving DecidableEq, Repr

structure BatchState where
  corrupt : List String
  flags : List (String × ℕ)
  invocs : List (String × ℕ)
  fs : List (String × ℕ)
deriving DecidableEq, Repr

/-- Mirrors `mark_video_corrupt` (`cli.py` lines 101-107). -/
def mark_video_corrupt (vid : String) (l : List String) : List String :=
  if vid ∈ l then l else l ++ [vid]

/-- Mirrors `clear_video_corrupt` (`cli.py` lines 109-117). -/
def clear_video_corrupt (vid : String) (l : List String) : List String :=
  if vid ∈ l then l.erase vid else l

def insertPair (p : String × ℕ) (l : List (String × ℕ)) : List (String × ℕ) :=
  if p ∈ l then l else l ++ [p]

/-- One (video, height) iteration of the resolutions loop
(`cli.py` lines 678-699), for a pair that passed the height check.  Returns
the new state and the `video_is_corrupt` flag.  A successful transcode
creates the output file; on failure `transcode_video_quality` leaves no
output file behind in the candidate loop, so `fs` is unchanged. -/
def stepHeight (env : String → ℕ → TransOutcome) (regenerate : Bool)
    (vid : String) (h : ℕ) (st : BatchState) : BatchState × Bool :=
  if ((vid, h) ∉ st.fs) ∨ regenerate = true then
    match env vid h with
    | .success =>
      ({ st with
         invocs := st.invocs ++ [(vid, h)],
         flags := insertPair (vid, h) st.flags,
         corrupt := clear_video_corrupt vid st.corrupt,
         fs := insertPair (vid, h) st.fs }, false)
    | .corruption =>
      ({ st with
         invocs := st.invocs ++ [(vid, h)],
         corrupt := mark_video_corrupt vid st.corrupt }, true)
    | .encodersFail =>
      ({ st with invocs := st.invocs ++ [(vid, h)] }, false)
  else
    ({ st with flags := insertPair (vid, h) st.flags }, false)

/-- The resolutions loop for one video (`cli.py` lines 664-699):
`original_height` is `vi.height or 0`; the loop breaks once
`video_is_corrupt` is set and skips heights that are not strictly below the
source height. -/
def processHeights (env : String → ℕ → TransOutcome) (regenerate : Bool)
    (vid : String) (original_height : ℕ) :
    List ℕ → Bool → BatchState → BatchState
  | [], _, st => st
  | h :: rest, video_is_corrupt, st =>
    if video_is_corrupt = true then st
    else if original_height ≤ h then
      processHeights env regenerate vid original_height rest video_is_corrupt st
    else
      processHeights env regenerate vid original_height rest
        (stepHeight env regenerate vid h st).2
        (stepHeight env regenerate vid h st).1

def processVideo (env : String → ℕ → TransOutcome) (regenerate : Bool)
    (resolutions : List ℕ) (v : VideoRec) (st : BatchState) : BatchState :=
  if v.pathExists = false then st
  else processHeights env regenerate v.id (v.height.getD 0) resolutions false st

/-- Video selection at the top of the batch (`cli.py` lines 637-647):
an explicit `--video` id filters the query; previously corrupt videos are
skipped unless `--include-corrupt` or `--video` is given. -/
def selectVideos (include_corrupt : Bool) (videoFilter : Option String)
    (corrupt : List String) (videos : List VideoRec) : List VideoRec :=
  let vs := match videoFilter with
    | some v => videos.filter (fun x => decide (x.id = v))
    | none => videos
  if include_corrupt = false ∧ videoFilter = none then
    vs.filter (fun x => decide (x.id ∉ corrupt))
  else vs

def transcode_videos (env : String → ℕ → TransOutcome) (regenerate include_corrupt : Bool)
    (videoFilter : Option String) (resolutions : List ℕ)
    (videos : List VideoRec) (st : BatchState) : BatchState :=
  (selectVideos include_corrupt videoFilter st.corrupt videos).foldl
    (fun s v => processVideo env regenerate resolutions v s) st

/-! ## Helper lemmas about the orchestrator -/

lemma stepHeight_invocs (env : String → ℕ → TransOutcome) (regen : Bool)
    (vid : String) (h : ℕ) (st : BatchState) :
    ∀ p ∈ (stepHeight env regen vid h st).1.invocs, p ∈ st.invocs ∨ p = (vid, h) := by
  intro p hp
  unfold stepHeight at hp
  split at hp
  · rcases henv : env vid h <;> rw [henv] at hp <;> simp at hp <;> tauto
  · exact Or.inl hp

lemma processHeights_invocs (env : String → ℕ → TransOutcome) (regen : Bool)
    (vid : String) (H : ℕ) : ∀ (res : List ℕ) (flag : Bool) (st : BatchState),
    ∀ p ∈ (processHeights env regen vid H res flag st).invocs,
      p ∈ st.invocs ∨ (p.1 = vid ∧ p.2 < H ∧ p.2 ∈ res) := by
  intro res
  induction res with
  | nil => intro flag st p hp; exact Or.inl hp
  | cons h rest ih =>
    intro flag st p hp
    unfold processHeights at hp
    split at hp
    · exact Or.inl hp
    · split at hp
      · rcases ih flag st p hp with h1 | ⟨h1, h2, h3⟩
        · exact Or.inl h1
        · exact Or.inr ⟨h1, h2, List.mem_cons_of_mem _ h3⟩
      · rename_i hflag hle
        rcases ih (stepHeight env regen vid h st).2 (stepHeight env regen vid h st).1
            p hp with h1 | ⟨h1, h2, h3⟩
        · rcases stepHeight_invocs env regen vid h st p h1 with h2 | h2
          · exact Or.inl h2
          · subst h2
            exact Or.inr ⟨rfl, by omega, List.mem_cons_self _ _⟩
        · exact Or.inr ⟨h1, h2, List.mem_cons_of_mem _ h3⟩

lemma processVideo_invocs (env : String → ℕ → TransOutcome) (regen : Bool)
    (res : List ℕ) (v : VideoRec) (st : BatchState) :
    ∀ p ∈ (processVideo env regen res v st).invocs,
      p ∈ st.invocs ∨ (p.1 = v.id ∧ p.2 < v.height.getD 0 ∧ p.2 ∈ res) := by
  intro p hp
  unfold processVideo at hp
  split at hp
  · exact Or.inl hp
  · exact processHeights_invocs env regen v.id (v.height.getD 0) res false st p hp

lemma foldl_processVideo_invocs (env : String → ℕ → TransOutcome) (regen : Bool)
    (res : List ℕ) : ∀ (vs : List VideoRec) (st : BatchState),
    ∀ p ∈ (vs.foldl (fun s v => processVideo env regen res v s) st).invocs,
      p ∈ st.invocs ∨ ∃ v ∈ vs, p.1 = v.id ∧ p.2 < v.height.getD 0 ∧ p.2 ∈ res := by
  intro vs
  induction vs with
  | nil => intro st p hp; exact Or.inl hp
  | cons v rest ih =>
    intro st p hp
    simp only [List.foldl_cons] at hp
    rcases ih (processVideo env regen res v st) p hp with h1 | ⟨w, hw, hh⟩
    · rcases processVideo_invocs env regen res v st p h1 with h2 | h2
      · exact Or.inl h2
      · exact Or.inr ⟨v, List.mem_cons_self _ _, h2⟩
    · exact Or.inr ⟨w, List.mem_cons_of_mem _ hw, hh⟩

lemma mem_selectVideos (inc : Bool) (vf : Option String) (c : List String)
    (videos : List VideoRec) (v : VideoRec) :
    v ∈ selectVideos inc vf c videos → v ∈ videos := by
  intro h
  rcases vf with _ | s <;> cases inc <;>
    simp [selectVideos, List.mem_filter] at h <;>
    first
    | exact h
    | exact h.1

/-! ## Theorems for claims C6, C7, C8 -/

/-- Claim C6: in the batch orchestrator, every transcode invocation performed
during a run is for a pair whose recorded source height (`vi.height or 0`)
strictly exceeds the target height, with the target among the enabled
resolutions — a video is never upscaled. -/
theorem transcode_never_upscales (env : String → ℕ → TransOutcome)
    (regen inc : Bool) (vf : Option String) (res : List ℕ)
    (videos : List VideoRec) (st : BatchState) :
    ∀ p ∈ (transcode_videos env regen inc vf res videos st).invocs,
      p ∈ st.invocs
      ∨ ∃ v ∈ videos, p.1 = v.id ∧ p.2 < v.height.getD 0 ∧ p.2 ∈ res := by
  intro p hp
  unfold transcode_videos at hp
  rcases foldl_processVideo_invocs env regen res
      (selectVideos inc vf st.corrupt videos) st p hp with h1 | ⟨v, hv, hh⟩
  · exact Or.inl h1
  · exact Or.inr ⟨v, mem_selectVideos inc vf st.corrupt videos v hv, hh⟩

/-- Witness for `transcode_never_upscales`: one 1080-high video transcoded
to 720p from an empty initial state. -/
theorem transcode_never_upscales_witness :
    (("a", 720) ∈ (transcode_videos (fun _ _ => TransOutcome.success) false false none
        [720] [VideoRec.mk "a" (some 1080) true] (BatchState.mk [] [] [] [])).invocs)
    ∧ ((("a", 720) ∈ (BatchState.mk [] [] [] []).invocs)
       ∨ ∃ v ∈ [VideoRec.mk "a" (some 1080) true],
           ("a", 720).1 = v.id ∧ ("a", 720).2 < v.height.getD 0 ∧ ("a", 720).2 ∈ [720]) :=
  ⟨by decide,
   transcode_never_upscales (fun _ _ => TransOutcome.success) false false none
     [720] [VideoRec.mk "a" (some 1080) true] (BatchState.mk [] [] [] [])
     ("a", 720) (by decide)⟩

/-- Claim C7: if a video id is in the corrupt registry and a transcode step
for it succeeds (the step actually transcodes: no existing output or
regenerate set), the id is removed from the registry — marking corrupt
followed by a successful transcode round-trips back to not-corrupt.  The
registry written by `mark_video_corrupt` is duplicate-free, hence the
`Nodup` hypothesis. -/
theorem corrupt_cleared_on_success (env : String → ℕ → TransOutcome) (regen : Bool)
    (vid : String) (h : ℕ) (st : BatchState)
    (hnd : st.corrupt.Nodup) (hmem : vid ∈ st.corrupt)
    (henv : env vid h = TransOutcome.success)
    (hrun : (vid, h) ∉ st.fs ∨ regen = true) :
    vid ∉ (stepHeight env regen vid h st).1.corrupt
    ∧ (stepHeight env regen vid h st).1.corrupt = st.corrupt.erase vid := by
  unfold stepHeight
  rw [if_pos hrun, henv]
  show vid ∉ clear_video_corrupt vid st.corrupt
    ∧ clear_video_corrupt vid st.corrupt = st.corrupt.erase vid
  unfold clear_video_corrupt
  rw [if_pos hmem]
  refine ⟨?_, rfl⟩
  intro hc
  rw [List.Nodup.mem_erase_iff hnd] at hc
  exact hc.1 rfl

/-- Witness for `corrupt_cleared_on_success`: video `a` marked corrupt,
then its 720p transcode succeeds. -/
theorem corrupt_cleared_on_success_witness :
    ((["a"] : List String).Nodup
     ∧ "a" ∈ (["a"] : List String)
     ∧ (fun _ _ => TransOutcome.success) "a" 720 = TransOutcome.success
     ∧ ((("a", 720) ∉ (BatchState.mk ["a"] [] [] []).fs) ∨ false = true))
    ∧ ("a" ∉ (stepHeight (fun _ _ => TransOutcome.success) false "a" 720
          (BatchState.mk ["a"] [] [] [])).1.corrupt
       ∧ (stepHeight (fun _ _ => TransOutcome.success) false "a" 720
          (BatchState.mk ["a"] [] [] [])).1.corrupt = (["a"] : List String).erase "a") :=
  ⟨⟨by decide, by decide, rfl, Or.inl (by decide)⟩,
   corrupt_cleared_on_success (fun _ _ => TransOutcome.success) false "a" 720
     (BatchState.mk ["a"] [] [] []) (by decide) (by decide) rfl (Or.inl (by decide))⟩

/-- Claim C8: with `regenerate = false`, a (video, height) step whose output
file already exists performs no transcode invocation but still sets the
corresponding has-variant flag to true (and does not trip the corrupt
flag). -/
theorem existing_output_reused (env : String → ℕ → TransOutcome)
    (vid : String) (h : ℕ) (st : BatchState) (hfs : (vid, h) ∈ st.fs) :
    (stepHeight env false vid h st).1.invocs = st.invocs
    ∧ (vid, h) ∈ (stepHeight env false vid h st).1.flags
    ∧ (stepHeight env false vid h st).2 = false := by
  have hcond : ¬(((vid, h) ∉ st.fs) ∨ (false : Bool) = true) := by
    simp [hfs]
  unfold stepHeight
  rw [if_neg hcond]
  refine ⟨rfl, ?_, rfl⟩
  show (vid, h) ∈ insertPair (vid, h) st.flags
  unfold insertPair
  by_cases hf : (vid, h) ∈ st.flags
  · rw [if_pos hf]; exact hf
  · rw [if_neg hf]; simp

/-- Witness for `existing_output_reused`: the 720p output for video `a`
already exists. -/
theorem existing_output_reused_witness :
    (("a", 720) ∈ (BatchState.mk [] [] [] [("a", 720)]).fs)
    ∧ ((stepHeight (fun _ _ => TransOutcome.encodersFail) false "a" 720
          (BatchState.mk [] [] [] [("a", 720)])).1.invocs
        = (BatchState.mk [] [] [] [("a", 720)]).invocs
       ∧ ("a", 720) ∈ (stepHeight (fun _ _ => TransOutcome.encodersFail) false "a" 720
          (BatchState.mk [] [] [] [("a", 720)])).1.flags
       ∧ (stepHeight (fun _ _ => TransOutcome.encodersFail) false "a" 720
          (BatchState.mk [] [] [] [("a", 720)])).2 = false) :=
  ⟨by decide,
   existing_output_reused (fun _ _ => TransOutcome.encodersFail) "a" 720
     (BatchState.mk [] [] [] [("a", 720)]) (by decide)⟩
